import Mathlib

/-!
Verification of the launcher-abstraction layer of `minecode-mcp`
(`src/minecode/launchers/`): the four product adapters
(`VanillaLauncher`, `MultiMCLauncher`, `PrismLauncherHandler`,
`CurseForgeLauncher`) and the aggregating `LauncherManager`.

The adapters are embedded over an explicit finite filesystem model `FS`
(existing directories, text files with contents, JSON files with their
parse outcome, modification times, and a set of paths whose deletion
fails).  Python exceptions are modelled with `Except`: a function that
can propagate an exception returns `Except Unit α` (or carries the
message as a `String` at the manager boundary); exceptions that the
source catches are folded into the corresponding sentinel result, as in
the source's `try`/`except` blocks.  The manager is embedded over an
abstract adapter behaviour (`BaseLauncher`), mirroring how `manager.py`
only interacts with adapters through the base-class interface.
-/

/-- Paths are lists of components; `p ++ [c]` models `p / c` from `pathlib`. -/
abbrev FsPath := List String

/-- Whether `pat` is an initial segment of `s` (both as char lists).
Structurally recursive so that concrete evaluations reduce. -/
def charsStart : List Char → List Char → Bool
  | _, [] => true
  | [], _ :: _ => false
  | a :: as, b :: bs => a == b && charsStart as bs

/-- Python `s.startswith(pre)`. -/
def strStarts (s pre : String) : Bool :=
  charsStart s.toList pre.toList

/-- Python `s.endswith(suf)`. -/
def strEnds (s suf : String) : Bool :=
  charsStart s.toList.reverse suf.toList.reverse

/-- Python `s.strip()`: drop whitespace from both ends. -/
def pyStrip (s : String) : String :=
  ⟨((s.toList.dropWhile Char.isWhitespace).reverse.dropWhile
      Char.isWhitespace).reverse⟩

/-- Split a char list at every occurrence of `c`. -/
def splitChars (c : Char) : List Char → List (List Char)
  | [] => [[]]
  | a :: as =>
    let rest := splitChars c as
    if a == c then [] :: rest
    else
      match rest with
      | [] => [[a]]
      | r :: rs => (a :: r) :: rs

/-- Split a string at every occurrence of the character `c`. -/
def splitOnChar (c : Char) (s : String) : List String :=
  (splitChars c s.toList).map List.asString

/-- The lines of a file as Python's `for line in f` yields them (modulo
the retained terminators, which every use immediately strips). -/
def splitLines (s : String) : List String :=
  splitOnChar '\n' s

/-- JSON values as produced by Python's `json.load`.  Objects keep their
key/value pairs in file order; Python builds a `dict` from them, so for
duplicate keys the last binding wins (see `lookupLast`). -/
inductive Json where
  | null
  | bool (b : Bool)
  | num (n : Int)
  | str (s : String)
  | arr (xs : List Json)
  | obj (kvs : List (String × Json))

/-- Lookup in a JSON object's pair list with Python `dict` semantics:
the last binding of a duplicated key is the one visible. -/
def lookupLast (kvs : List (String × Json)) (k : String) : Option Json :=
  kvs.reverse.lookup k

/-- Python `d.get(k, dflt)`: succeeds on a `dict`, raises `AttributeError`
(modelled as `Except.error ()`) when the receiver is not a `dict`. -/
def Json.pyDictGet : Json → String → Json → Except Unit Json
  | .obj kvs, k, dflt => .ok ((lookupLast kvs k).getD dflt)
  | _, _, _ => .error ()

/-- Python `d.get(k)` (no default): `none` for a missing key, raises
`AttributeError` when the receiver is not a `dict`. -/
def Json.pyGetOpt : Json → String → Except Unit (Option Json)
  | .obj kvs, k => .ok (lookupLast kvs k)
  | _, _ => .error ()

/-- Python truthiness of a JSON value (`if profile:` in the source). -/
def Json.pyTruthy : Json → Bool
  | .null => false
  | .bool b => b
  | .num n => n != 0
  | .str s => s != ""
  | .arr xs => !xs.isEmpty
  | .obj kvs => !kvs.isEmpty

/-- Python `dict` assignment `d[k] = v`: overwrite in place when the key
is present, append otherwise. -/
def dictSet {α β : Type} [BEq α] (d : List (α × β)) (k : α) (v : β) : List (α × β) :=
  if d.any (fun kv => kv.1 == k) then
    d.map (fun kv => bif kv.1 == k then (k, v) else kv)
  else d ++ [(k, v)]

/-- Finite filesystem state seen by the adapters, plus the ambient
`shutil.which("java")` answer.  `jsonFiles` records each JSON file's
parse outcome (`none` = exists but unreadable or invalid JSON, as both
`IOError` and `json.JSONDecodeError` are handled identically by the
source).  `failUnlink` is the set of paths whose `unlink()` raises. -/
structure FS where
  dirs : List FsPath
  textFiles : List (FsPath × String)
  jsonFiles : List (FsPath × Option Json)
  mtimes : List (FsPath × Nat)
  failUnlink : List FsPath
  whichJava : Option FsPath

/-- Paths of all regular files. -/
def FS.filePaths (fs : FS) : List FsPath :=
  fs.textFiles.map Prod.fst ++ fs.jsonFiles.map Prod.fst

/-- Every existing path (directories and files). -/
def FS.allPaths (fs : FS) : List FsPath :=
  fs.dirs ++ fs.filePaths

/-- Python `Path.exists()`: true for files and directories alike. -/
def FS.pathExists (fs : FS) (p : FsPath) : Bool :=
  decide (p ∈ fs.allPaths)

/-- Python `Path.is_dir()`. -/
def FS.isDir (fs : FS) (p : FsPath) : Bool :=
  decide (p ∈ fs.dirs)

/-- Whether `p` is an existing regular file. -/
def FS.isFile (fs : FS) (p : FsPath) : Bool :=
  decide (p ∈ fs.filePaths)

/-- Reading a text file; `none` models an `IOError` (missing file or
unreadable entry). -/
def FS.readText (fs : FS) (p : FsPath) : Option String :=
  fs.textFiles.lookup p

/-- Opening and `json.load`-ing a file; `Except.error ()` models the
`IOError` / `json.JSONDecodeError` cases. -/
def FS.readJson (fs : FS) (p : FsPath) : Except Unit Json :=
  match fs.jsonFiles.lookup p with
  | some (some j) => .ok j
  | _ => .error ()

/-- Python `Path.stat().st_mtime` of a file. -/
def FS.mtime (fs : FS) (p : FsPath) : Nat :=
  (fs.mtimes.lookup p).getD 0

/-- Names of the direct children of directory `p`, as `Path.iterdir`
would yield them (in the order the entries appear in the state). -/
def FS.childNames (fs : FS) (p : FsPath) : List String :=
  ((fs.allPaths.filter (fun q => !q.isEmpty && q.dropLast == p)).map
    (fun q => q.getLastD "")).dedup

/-- Whether a file name matches the glob pattern `*.log`:
`pathlib.Path.glob` (used by every `clear_logs` and by Vanilla's
`get_logs`) matches dot-prefixed (hidden) names too, so the pattern is
exactly a `.log` suffix with `*` matching any prefix, the empty one
included. -/
def matchesLogGlob (n : String) : Bool :=
  strEnds n ".log"

/-- Python `logs_dir.glob("*.log")`: child names matching `*.log`. -/
def FS.globLogs (fs : FS) (d : FsPath) : List String :=
  (fs.childNames d).filter matchesLogGlob

/-- Whether `p.unlink()` raises: either the path is marked as failing
(permission error, ...) or it is a directory. -/
def FS.unlinkFails (fs : FS) (p : FsPath) : Bool :=
  fs.failUnlink.contains p || fs.isDir p

/-- Effect of a successful `p.unlink()`: the file entry disappears. -/
def FS.removeFile (fs : FS) (p : FsPath) : FS :=
  { fs with
    textFiles := fs.textFiles.filter (fun kv => kv.1 != p)
    jsonFiles := fs.jsonFiles.filter (fun kv => kv.1 != p)
    mtimes := fs.mtimes.filter (fun kv => kv.1 != p) }

/-- Well-formedness of a filesystem state: the parent of every existing
path exists (real filesystems are prefix-closed). -/
def FS.wf (fs : FS) : Bool :=
  fs.allPaths.all (fun q => q.isEmpty || fs.pathExists q.dropLast)

/-- Python `Path(s)` on a string: split into components (no further
normalisation is needed for the inputs exercised here). -/
def pathOfString (s : String) : FsPath :=
  (splitOnChar '/' s).filter (fun c => c != "")

/-- Reading a log file opened with `errors='ignore'`; the source turns an
`IOError` into the literal diagnostic `f"Error reading log: {e}"`, which
we model with a fixed prefix. -/
def readLogFile (fs : FS) (p : FsPath) : String :=
  match fs.readText p with
  | some s => s
  | none => "Error reading log"

/-- Descriptive metadata for a launcher (`LauncherInfo` in `base.py`). -/
structure LauncherInfo where
  name : String
  version : Option String
  path : FsPath
  java_executable : Option FsPath
  launcher_type : String

/-- Python `sorted(files, key=mtime, reverse=True)`: the log files in
order of decreasing modification time (ties in an unspecified order, as
the source relies on nothing beyond the most recent element). -/
def sortedByMtimeDesc (fs : FS) (d : FsPath) (ns : List String) : List String :=
  ns.insertionSort (fun a b => fs.mtime (d ++ [b]) ≤ fs.mtime (d ++ [a]))

/-- Loop body of every adapter's `clear_logs`: unlink each matched file
in turn; an `unlink()` that raises aborts the loop, keeping the files
already deleted gone (`except` then `return False`). -/
def clearLogsDirGo (d : FsPath) : List String → FS → Bool × FS
  | [], fs => (true, fs)
  | n :: rest, fs =>
    if fs.unlinkFails (d ++ [n]) then (false, fs)
    else clearLogsDirGo d rest (fs.removeFile (d ++ [n]))

/-- Shared deletion loop: `for log_file in logs_dir.glob("*.log"):
log_file.unlink()` wrapped in `try`/`except`, returning the success flag
and the updated filesystem. -/
def FS.clearLogsInDir (fs : FS) (d : FsPath) : Bool × FS :=
  clearLogsDirGo d (fs.globLogs d) fs

namespace VanillaLauncher

/-- Transcribes `VanillaLauncher.detect` (vanilla_launcher.py:41-43). -/
def detect (fs : FS) (launcher_path : FsPath) : Bool :=
  fs.pathExists (launcher_path ++ ["launcher_profiles.json"])

/-- Transcribes `VanillaLauncher.get_instance_logs_directory`
(vanilla_launcher.py:129-149).  The caught `json.JSONDecodeError` /
`IOError` cases fold into `.ok none`; an `AttributeError` from `.get` on
a non-dict, or a `TypeError` from `Path(...)` on a non-string `gameDir`,
propagates as `.error ()`. -/
def get_instance_logs_directory (fs : FS) (launcher_path : FsPath)
    (instance_name : String) : Except Unit (Option FsPath) :=
  let profiles_file := launcher_path ++ ["launcher_profiles.json"]
  if fs.pathExists profiles_file then
    match fs.readJson profiles_file with
    | .error _ => .ok none
    | .ok data => do
      let profiles ← data.pyDictGet "profiles" (Json.obj [])
      let profile ← profiles.pyGetOpt instance_name
      match profile with
      | some p =>
        if p.pyTruthy then do
          let game_dir ←
            match p with
            | Json.obj kvs =>
              match lookupLast kvs "gameDir" with
              | some (Json.str s) => Except.ok (pathOfString s)
              | some _ => Except.error ()
              | none => Except.ok launcher_path
            | _ => Except.error ()
          let logs_dir := game_dir ++ ["logs"]
          pure (if fs.pathExists logs_dir then some logs_dir else none)
        else pure none
      | none => pure none
  else .ok none

/-- Transcribes `VanillaLauncher.get_logs` (vanilla_launcher.py:95-112):
resolve the logs directory, sort the `*.log` files by decreasing
modification time, read the first. -/
def get_logs (fs : FS) (launcher_path : FsPath) (instance_name : String) :
    Except Unit (Option String) := do
  let logs_dir ← get_instance_logs_directory fs launcher_path instance_name
  match logs_dir with
  | none => pure none
  | some d =>
    if fs.pathExists d then
      match sortedByMtimeDesc fs d (fs.globLogs d) with
      | [] => pure none
      | f :: _ => pure (some (readLogFile fs (d ++ [f])))
    else pure none

/-- Transcribes `VanillaLauncher.clear_logs` (vanilla_launcher.py:114-127). -/
def clear_logs (fs : FS) (launcher_path : FsPath) (instance_name : String) :
    Except Unit (Bool × FS) := do
  let logs_dir ← get_instance_logs_directory fs launcher_path instance_name
  match logs_dir with
  | none => pure (false, fs)
  | some d =>
    if fs.pathExists d then pure (fs.clearLogsInDir d) else pure (false, fs)

end VanillaLauncher

/-- Text of `line.split('=', 1)`: the part before the first `=` and the
part after it. -/
def splitEq1 (s : String) : String × String :=
  (⟨s.toList.takeWhile (· ≠ '=')⟩, ⟨(s.toList.dropWhile (· ≠ '=')).drop 1⟩)

/-- One iteration of the `instance.cfg` loop (multimc.py:93-97):
strip the line; when it contains `=` and does not start with `[`, split
at the first `=` and store the stripped key/value pair in the dict. -/
def cfgStep (config : List (String × String)) (line : String) :
    List (String × String) :=
  let line := pyStrip line
  if line.toList.contains '=' && !strStarts line "[" then
    dictSet config (pyStrip (splitEq1 line).1) (pyStrip (splitEq1 line).2)
  else config

/-- Parse the lines of an `instance.cfg` into the `config` dict. -/
def parseCfgLines (lines : List String) : List (String × String) :=
  lines.foldl cfgStep []

/-- Whether a raw line is treated as a key/value assignment by `cfgStep`. -/
def isAssignLine (l : String) : Bool :=
  ((pyStrip l).toList.contains '=') && !strStarts (pyStrip l) "["

/-- Key assigned by an assignment line. -/
def keyOf (l : String) : String := pyStrip (splitEq1 (pyStrip l)).1

/-- Value assigned by an assignment line. -/
def assignedValue (l : String) : String := pyStrip (splitEq1 (pyStrip l)).2

/-- Whether line `l` assigns key `k`. -/
def assignsKey (l k : String) : Bool := isAssignLine l && keyOf l == k

/-- Instance dictionary built by `MultiMCLauncher.get_instances`
(multimc.py:99-105); `path` keeps the components of `str(instance_path)`. -/
structure MmcInstance where
  name : String
  version : String
  path : FsPath
  type : String
  launcher : String
deriving DecidableEq

namespace MultiMCLauncher

/-- Transcribes `MultiMCLauncher.detect` (multimc.py:50-52). -/
def detect (fs : FS) (launcher_path : FsPath) : Bool :=
  fs.pathExists (launcher_path ++ ["instances"])

/-- Transcribes `MultiMCLauncher.get_instances` (multimc.py:73-109).
The `for`/`continue`/`append` loop over `instances_dir.iterdir()` is the
`filterMap` below; an `IOError` while reading `instance.cfg` (modelled
by `readText` returning `none`) skips the instance, as the source's
`except IOError: continue` does. -/
def get_instances (fs : FS) (launcher_path : FsPath) : List MmcInstance :=
  let instances_dir := launcher_path ++ ["instances"]
  if fs.pathExists instances_dir then
    (fs.childNames instances_dir).filterMap (fun nm =>
      let instance_path := instances_dir ++ [nm]
      if fs.isDir instance_path then
        if fs.pathExists (instance_path ++ ["instance.cfg"]) then
          match fs.readText (instance_path ++ ["instance.cfg"]) with
          | some content =>
            let config := parseCfgLines (splitLines content)
            some { name := nm,
                   version := (config.lookup "InstanceType").getD "Unknown",
                   path := instance_path,
                   type := "instance",
                   launcher := "multimc" }
          | none => none
        else none
      else none)
  else []

/-- Transcribes `MultiMCLauncher.get_instance_logs_directory`
(multimc.py:145-153). -/
def get_instance_logs_directory (fs : FS) (launcher_path : FsPath)
    (instance_name : String) : Option FsPath :=
  let instance_path := launcher_path ++ ["instances", instance_name]
  if fs.pathExists instance_path then
    let logs_dir := instance_path ++ [".minecraft", "logs"]
    if fs.pathExists logs_dir then some logs_dir else none
  else none

/-- Transcribes `MultiMCLauncher.get_logs` (multimc.py:111-127): read
`latest.log` in the resolved logs directory. -/
def get_logs (fs : FS) (launcher_path : FsPath) (instance_name : String) :
    Option String :=
  match get_instance_logs_directory fs launcher_path instance_name with
  | none => none
  | some logs_dir =>
    if fs.pathExists logs_dir then
      if fs.pathExists (logs_dir ++ ["latest.log"]) then
        some (readLogFile fs (logs_dir ++ ["latest.log"]))
      else none
    else none

/-- Transcribes `MultiMCLauncher.clear_logs` (multimc.py:129-143). -/
def clear_logs (fs : FS) (launcher_path : FsPath) (instance_name : String) :
    Bool × FS :=
  match get_instance_logs_directory fs launcher_path instance_name with
  | none => (false, fs)
  | some logs_dir =>
    if fs.pathExists logs_dir then fs.clearLogsInDir logs_dir else (false, fs)

/-- Transcribes `MultiMCLauncher.get_launcher_info` (multimc.py:54-71). -/
def get_launcher_info (fs : FS) (launcher_path : FsPath) : LauncherInfo :=
  let version_file := launcher_path ++ ["version.txt"]
  { name := "MultiMC",
    version :=
      if fs.pathExists version_file then
        match fs.readText version_file with
        | some s => some (pyStrip s)
        | none => none
      else none,
    path := launcher_path,
    java_executable := fs.whichJava,
    launcher_type := "multimc" }

end MultiMCLauncher

namespace PrismLauncherHandler

/-- Transcribes `PrismLauncherHandler.detect` (multimc.py:198-200);
the body is identical to MultiMC's. -/
def detect (fs : FS) (launcher_path : FsPath) : Bool :=
  fs.pathExists (launcher_path ++ ["instances"])

/-- `PrismLauncherHandler` inherits `get_instances` from
`MultiMCLauncher` without overriding it (multimc.py:163). -/
def get_instances : FS → FsPath → List MmcInstance :=
  MultiMCLauncher.get_instances

/-- `PrismLauncherHandler` inherits `get_logs` from `MultiMCLauncher`
without overriding it. -/
def get_logs : FS → FsPath → String → Option String :=
  MultiMCLauncher.get_logs

/-- `PrismLauncherHandler` inherits `clear_logs` from `MultiMCLauncher`
without overriding it. -/
def clear_logs : FS → FsPath → String → Bool × FS :=
  MultiMCLauncher.clear_logs

/-- `PrismLauncherHandler` inherits `get_instance_logs_directory` from
`MultiMCLauncher` without overriding it. -/
def get_instance_logs_directory : FS → FsPath → String → Option FsPath :=
  MultiMCLauncher.get_instance_logs_directory

/-- Transcribes `PrismLauncherHandler.get_launcher_info`
(multimc.py:202-218): Prism's own version file and type tag. -/
def get_launcher_info (fs : FS) (launcher_path : FsPath) : LauncherInfo :=
  let version_file := launcher_path ++ ["prismlauncher_version.txt"]
  { name := "Prism Launcher",
    version :=
      if fs.pathExists version_file then
        match fs.readText version_file with
        | some s => some (pyStrip s)
        | none => none
      else none,
    path := launcher_path,
    java_executable := fs.whichJava,
    launcher_type := "prism" }

end PrismLauncherHandler

/-- Instance dictionary built by `CurseForgeLauncher.get_instances`
(curseforge.py:70-87); `version` is whatever JSON value
`manifest.get("minecraft", {}).get("version", "Unknown")` produced. -/
structure CfInstance where
  name : String
  path : FsPath
  type : String
  launcher : String
  version : Json

namespace CurseForgeLauncher

/-- Transcribes `CurseForgeLauncher.detect` (curseforge.py:40-43). -/
def detect (fs : FS) (launcher_path : FsPath) : Bool :=
  fs.pathExists (launcher_path ++ ["Instances"])

/-- Transcribes `CurseForgeLauncher.get_instances` (curseforge.py:55-89).
Only `json.JSONDecodeError` and `IOError` are caught around the
manifest read; an `AttributeError` from `.get` on a non-dict value
propagates out of the whole loop (`.error ()`). -/
def get_instances (fs : FS) (launcher_path : FsPath) :
    Except Unit (List CfInstance) :=
  let instances_dir := launcher_path ++ ["Instances"]
  if fs.pathExists instances_dir then
    (fs.childNames instances_dir).foldlM (fun acc nm => do
      let instance_path := instances_dir ++ [nm]
      if fs.isDir instance_path then
        let manifest_file := instance_path ++ ["manifest.json"]
        let version ←
          if fs.pathExists manifest_file then
            match fs.readJson manifest_file with
            | .error _ => pure (Json.str "Unknown")
            | .ok manifest => do
              let mc ← manifest.pyDictGet "minecraft" (Json.obj [])
              mc.pyDictGet "version" (Json.str "Unknown")
          else pure (Json.str "Unknown")
        pure (acc ++ [{ name := nm, path := instance_path,
                        type := "modpack", launcher := "curseforge",
                        version := version : CfInstance }])
      else pure acc) []
  else .ok []

/-- Transcribes `CurseForgeLauncher.get_instance_logs_directory`
(curseforge.py:124-137): `.minecraft/logs`, falling back to `logs`. -/
def get_instance_logs_directory (fs : FS) (launcher_path : FsPath)
    (instance_name : String) : Option FsPath :=
  let instance_path := launcher_path ++ ["Instances", instance_name]
  if fs.pathExists instance_path then
    let logs_dir := instance_path ++ [".minecraft", "logs"]
    let logs_dir :=
      if fs.pathExists logs_dir then logs_dir else instance_path ++ ["logs"]
    if fs.pathExists logs_dir then some logs_dir else none
  else none

/-- Transcribes `CurseForgeLauncher.clear_logs` (curseforge.py:109-122). -/
def clear_logs (fs : FS) (launcher_path : FsPath) (instance_name : String) :
    Bool × FS :=
  match get_instance_logs_directory fs launcher_path instance_name with
  | none => (false, fs)
  | some logs_dir =>
    if fs.pathExists logs_dir then fs.clearLogsInDir logs_dir else (false, fs)

end CurseForgeLauncher

/-- Behaviour of an adapter as observed by the manager: `manager.py`
only calls the base-class interface, and each call either returns a
value or raises (the `Except.error` carries the exception's message).
`detect` covers the `launcher.detect()` call of `_detect_all_launchers`. -/
structure BaseLauncher where
  detect : Except String Bool
  get_logs : String → Except String (Option String)
  get_launcher_info : Except String LauncherInfo

namespace LauncherManager

/-- Transcribes `LauncherManager._detect_all_launchers`
(manager.py:30-38): iterate over the supported launchers (a name paired
with the outcome of constructing its adapter, which itself may raise);
on any exception during construction or detection, skip the product;
store the adapter under its name when `detect()` returns true. -/
def detect_all_launchers
    (supported : List (String × Except String BaseLauncher)) :
    List (String × BaseLauncher) :=
  supported.foldl (fun detected entry =>
    match entry.2 with
    | .error _ => detected
    | .ok launcher =>
      match launcher.detect with
      | .error _ => detected
      | .ok true => dictSet detected entry.1 launcher
      | .ok false => detected) []

/-- Transcribes `LauncherManager.get_logs` (manager.py:89-110). -/
def get_logs (detected : List (String × BaseLauncher))
    (launcher_type instance_name : String) : String :=
  match detected.lookup launcher_type with
  | none => "Launcher " ++ launcher_type ++ " not found"
  | some launcher =>
    match launcher.get_logs instance_name with
    | .error e => "Error retrieving logs: " ++ e
    | .ok none => "No logs found for instance " ++ instance_name
    | .ok (some logs) => logs

/-- Transcribes `LauncherManager.get_launcher_infos` (manager.py:73-87):
a failing `get_launcher_info()` is skipped with no placeholder entry. -/
def get_launcher_infos (detected : List (String × BaseLauncher)) :
    List (String × LauncherInfo) :=
  detected.foldl (fun infos entry =>
    match entry.2.get_launcher_info with
    | .ok info => dictSet infos entry.1 info
    | .error _ => infos) []

end LauncherManager

/-! Generic association-list lemmas used throughout. -/

theorem lookup_not_mem {α β : Type} [BEq α] [LawfulBEq α] {l : List (α × β)}
    {k : α} (h : k ∉ l.map Prod.fst) : l.lookup k = none := by
  induction l with
  | nil => rfl
  | cons kv t ih =>
    obtain ⟨k', v'⟩ := kv
    have h1 : k ≠ k' := fun he => h (by simp [he])
    have h2 : k ∉ t.map Prod.fst := fun hm => h (by simp [hm])
    simp [List.lookup, beq_eq_false_iff_ne.mpr h1, ih h2]

theorem lookup_mem {α β : Type} [BEq α] [LawfulBEq α] {l : List (α × β)}
    {k : α} {v : β} (h : l.lookup k = some v) : (k, v) ∈ l := by
  induction l with
  | nil => simp [List.lookup] at h
  | cons kv t ih =>
    obtain ⟨k', v'⟩ := kv
    by_cases he : k = k'
    · subst he
      simp [List.lookup] at h
      simp [h]
    · simp [List.lookup, beq_eq_false_iff_ne.mpr he] at h
      exact List.mem_cons_of_mem _ (ih h)

theorem lookup_of_mem_nodup {α β : Type} [BEq α] [LawfulBEq α]
    {l : List (α × β)} {k : α} {v : β} (hm : (k, v) ∈ l)
    (hnd : (l.map Prod.fst).Nodup) : l.lookup k = some v := by
  induction l with
  | nil => simp at hm
  | cons kv t ih =>
    obtain ⟨k', v'⟩ := kv
    simp only [List.map_cons, List.nodup_cons] at hnd
    rcases List.mem_cons.mp hm with he | ht
    · obtain ⟨hk, hv⟩ := Prod.mk.injEq .. ▸ he
      subst hk; subst hv
      simp [List.lookup]
    · have hne : k ≠ k' := by
        intro he; subst he
        exact hnd.1 (List.mem_map.mpr ⟨(k, v), ht, rfl⟩)
      simp [List.lookup, beq_eq_false_iff_ne.mpr hne, ih ht hnd.2]

theorem lookup_append_left {α β : Type} [BEq α] [LawfulBEq α]
    {l1 : List (α × β)} (l2 : List (α × β)) {k : α}
    (h : l1.lookup k = none) : (l1 ++ l2).lookup k = l2.lookup k := by
  induction l1 with
  | nil => rfl
  | cons kv t ih =>
    obtain ⟨k', v'⟩ := kv
    by_cases he : k = k'
    · subst he; simp [List.lookup] at h
    · simp only [List.lookup, beq_eq_false_iff_ne.mpr he] at h
      simp [List.lookup, beq_eq_false_iff_ne.mpr he, ih h]

theorem lookup_overwrite {α β : Type} [BEq α] [LawfulBEq α]
    (d : List (α × β)) (k : α) (v : β)
    (hmem : d.any (fun kv => kv.1 == k) = true) :
    (d.map (fun kv => bif kv.1 == k then (k, v) else kv)).lookup k = some v := by
  induction d with
  | nil => simp at hmem
  | cons kv t ih =>
    obtain ⟨k', v'⟩ := kv
    by_cases he : k' = k
    · subst he
      simp [List.lookup]
    · have h1 : (k' == k) = false := beq_eq_false_iff_ne.mpr he
      have h2 : (k == k') = false := beq_eq_false_iff_ne.mpr (Ne.symm he)
      simp only [List.any_cons, h1, Bool.false_or] at hmem
      simp [List.lookup, h1, h2, ih hmem]

theorem lookup_overwrite_ne {α β : Type} [BEq α] [LawfulBEq α]
    (d : List (α × β)) (k k' : α) (v : β) (hne : k' ≠ k) :
    (d.map (fun kv => bif kv.1 == k then (k, v) else kv)).lookup k' =
      d.lookup k' := by
  induction d with
  | nil => rfl
  | cons kv t ih =>
    obtain ⟨ka, va⟩ := kv
    by_cases he : ka = k
    · subst he
      simp [List.lookup, beq_eq_false_iff_ne.mpr hne, ih]
    · by_cases he2 : k' = ka
      · subst he2
        simp [List.lookup, beq_eq_false_iff_ne.mpr he, ih]
      · simp [List.lookup, beq_eq_false_iff_ne.mpr he,
              beq_eq_false_iff_ne.mpr he2, ih]

theorem lookup_append_single_ne {α β : Type} [BEq α] [LawfulBEq α]
    (d : List (α × β)) (k k' : α) (v : β) (hne : k' ≠ k) :
    (d ++ [(k, v)]).lookup k' = d.lookup k' := by
  induction d with
  | nil => simp [List.lookup, beq_eq_false_iff_ne.mpr hne]
  | cons kv t ih =>
    obtain ⟨ka, va⟩ := kv
    by_cases he : k' = ka
    · subst he; simp [List.lookup]
    · simp [List.lookup, beq_eq_false_iff_ne.mpr he, ih]

theorem lookup_dictSet_self {α β : Type} [BEq α] [LawfulBEq α]
    (d : List (α × β)) (k : α) (v : β) :
    (dictSet d k v).lookup k = some v := by
  unfold dictSet
  by_cases hany : d.any (fun kv => kv.1 == k) = true
  · rw [if_pos hany]
    exact lookup_overwrite d k v hany
  · rw [if_neg hany]
    have hno : d.lookup k = none := by
      apply lookup_not_mem
      intro hm
      obtain ⟨kv, hkv, hfst⟩ := List.mem_map.mp hm
      exact hany (List.any_eq_true.mpr ⟨kv, hkv, by simp [hfst]⟩)
    simp [lookup_append_left _ hno, List.lookup]

theorem lookup_dictSet_ne {α β : Type} [BEq α] [LawfulBEq α]
    (d : List (α × β)) (k k' : α) (v : β) (hne : k' ≠ k) :
    (dictSet d k v).lookup k' = d.lookup k' := by
  unfold dictSet
  by_cases hany : d.any (fun kv => kv.1 == k) = true
  · rw [if_pos hany]
    exact lookup_overwrite_ne d k k' v hne
  · rw [if_neg hany]
    exact lookup_append_single_ne d k k' v hne

theorem dictSet_not_mem {α β : Type} [BEq α] [LawfulBEq α]
    {d : List (α × β)} {k : α} (v : β) (h : k ∉ d.map Prod.fst) :
    dictSet d k v = d ++ [(k, v)] := by
  unfold dictSet
  have hany : d.any (fun kv => kv.1 == k) = false := by
    rw [List.any_eq_false]
    intro kv hkv he
    exact h (List.mem_map.mpr ⟨kv, hkv, eq_of_beq he⟩)
  simp [hany]

/-! Characterisation of the manager's two accumulation loops. -/

/-- Outcome of `_detect_all_launchers` for one supported entry: the
adapter, provided construction and `detect()` both succeed and the
latter returns true. -/
def detectPick (entry : String × Except String BaseLauncher) :
    Option (String × BaseLauncher) :=
  match entry.2 with
  | .ok launcher =>
    match launcher.detect with
    | .ok true => some (entry.1, launcher)
    | _ => none
  | .error _ => none

theorem detect_all_foldl (supported : List (String × Except String BaseLauncher))
    (acc : List (String × BaseLauncher))
    (hdis : ∀ nm ∈ supported.map Prod.fst, nm ∉ acc.map Prod.fst)
    (hnd : (supported.map Prod.fst).Nodup) :
    supported.foldl (fun detected entry =>
      match entry.2 with
      | .error _ => detected
      | .ok launcher =>
        match launcher.detect with
        | .error _ => detected
        | .ok true => dictSet detected entry.1 launcher
        | .ok false => detected) acc
    = acc ++ supported.filterMap detectPick := by
  induction supported generalizing acc with
  | nil => simp
  | cons e t ih =>
    obtain ⟨nm, c⟩ := e
    simp only [List.map_cons, List.nodup_cons] at hnd
    have hdist : ∀ nm' ∈ t.map Prod.fst, nm' ∉ acc.map Prod.fst :=
      fun nm' hm => hdis nm' (by simp [hm])
    match c with
    | .error msg =>
      simpa [detectPick] using ih acc hdist hnd.2
    | .ok launcher =>
      match hdet : launcher.detect with
      | .error msg =>
        simpa [detectPick, hdet] using ih acc hdist hnd.2
      | .ok false =>
        simpa [detectPick, hdet] using ih acc hdist hnd.2
      | .ok true =>
        have hnotin : nm ∉ acc.map Prod.fst := hdis nm (by simp)
        have hstep : dictSet acc nm launcher = acc ++ [(nm, launcher)] :=
          dictSet_not_mem launcher hnotin
        have hdist2 : ∀ nm' ∈ t.map Prod.fst,
            nm' ∉ (acc ++ [(nm, launcher)]).map Prod.fst := by
          intro nm' hm
          simp only [List.map_append, List.mem_append, List.map_cons,
            List.map_nil, List.mem_singleton]
          rintro (h | h)
          · exact hdist nm' hm h
          · exact hnd.1 (h ▸ hm)
        simp only [List.foldl_cons, hstep, List.filterMap_cons, detectPick, hdet]
        rw [ih (acc ++ [(nm, launcher)]) hdist2 hnd.2]
        simp

theorem detect_all_eq_filterMap
    (supported : List (String × Except String BaseLauncher))
    (hnd : (supported.map Prod.fst).Nodup) :
    LauncherManager.detect_all_launchers supported =
      supported.filterMap detectPick := by
  unfold LauncherManager.detect_all_launchers
  simpa using detect_all_foldl supported [] (by simp) hnd

/-- Outcome of `get_launcher_infos` for one detected entry. -/
def infoPick (entry : String × BaseLauncher) :
    Option (String × LauncherInfo) :=
  match entry.2.get_launcher_info with
  | .ok info => some (entry.1, info)
  | .error _ => none

theorem infos_foldl (detected : List (String × BaseLauncher))
    (acc : List (String × LauncherInfo))
    (hdis : ∀ nm ∈ detected.map Prod.fst, nm ∉ acc.map Prod.fst)
    (hnd : (detected.map Prod.fst).Nodup) :
    detected.foldl (fun infos entry =>
      match entry.2.get_launcher_info with
      | .ok info => dictSet infos entry.1 info
      | .error _ => infos) acc
    = acc ++ detected.filterMap infoPick := by
  induction detected generalizing acc with
  | nil => simp
  | cons e t ih =>
    obtain ⟨nm, launcher⟩ := e
    simp only [List.map_cons, List.nodup_cons] at hnd
    have hdist : ∀ nm' ∈ t.map Prod.fst, nm' ∉ acc.map Prod.fst :=
      fun nm' hm => hdis nm' (by simp [hm])
    match hinfo : launcher.get_launcher_info with
    | .error msg =>
      simpa [infoPick, hinfo] using ih acc hdist hnd.2
    | .ok info =>
      have hnotin : nm ∉ acc.map Prod.fst := hdis nm (by simp)
      have hstep : dictSet acc nm info = acc ++ [(nm, info)] :=
        dictSet_not_mem info hnotin
      have hdist2 : ∀ nm' ∈ t.map Prod.fst,
          nm' ∉ (acc ++ [(nm, info)]).map Prod.fst := by
        intro nm' hm
        simp only [List.map_append, List.mem_append, List.map_cons,
          List.map_nil, List.mem_singleton]
        rintro (h | h)
        · exact hdist nm' hm h
        · exact hnd.1 (h ▸ hm)
      simp only [List.foldl_cons, hstep, List.filterMap_cons, infoPick, hinfo]
      rw [ih (acc ++ [(nm, info)]) hdist2 hnd.2]
      simp

theorem infos_eq_filterMap (detected : List (String × BaseLauncher))
    (hnd : (detected.map Prod.fst).Nodup) :
    LauncherManager.get_launcher_infos detected =
      detected.filterMap infoPick := by
  unfold LauncherManager.get_launcher_infos
  simpa using infos_foldl detected [] (by simp) hnd

theorem map_fst_filterMap_sublist {α β γ : Type}
    (pick : α × β → Option (α × γ))
    (hp : ∀ e x, pick e = some x → x.1 = e.1) (l : List (α × β)) :
    ((l.filterMap pick).map Prod.fst).Sublist (l.map Prod.fst) := by
  induction l with
  | nil => simp
  | cons e t ih =>
    simp only [List.filterMap_cons, List.map_cons]
    cases hpe : pick e with
    | none => exact ih.cons e.1
    | some x =>
      rw [List.map_cons, hp e x hpe]
      exact ih.cons₂ e.1

/-! Effect lemmas for the deletion loop shared by every `clear_logs`. -/

theorem mem_map_fst_filter_ne {α β : Type} [BEq α] [LawfulBEq α]
    (l : List (α × β)) (p q : α) :
    p ∈ (l.filter (fun kv => kv.1 != q)).map Prod.fst ↔
      p ≠ q ∧ p ∈ l.map Prod.fst := by
  constructor
  · intro h
    obtain ⟨kv, hkv, rfl⟩ := List.mem_map.mp h
    have := List.mem_filter.mp hkv
    exact ⟨bne_iff_ne.mp this.2, List.mem_map.mpr ⟨kv, this.1, rfl⟩⟩
  · rintro ⟨hne, h⟩
    obtain ⟨kv, hkv, rfl⟩ := List.mem_map.mp h
    exact List.mem_map.mpr
      ⟨kv, List.mem_filter.mpr ⟨hkv, bne_iff_ne.mpr hne⟩, rfl⟩

theorem lookup_filter_self {α β : Type} [BEq α] [LawfulBEq α]
    (l : List (α × β)) (q : α) :
    (l.filter (fun kv => kv.1 != q)).lookup q = none := by
  apply lookup_not_mem
  rw [mem_map_fst_filter_ne]
  simp

theorem lookup_filter_other {α β : Type} [BEq α] [LawfulBEq α]
    {l : List (α × β)} {p q : α} (hpq : p ≠ q) :
    (l.filter (fun kv => kv.1 != q)).lookup p = l.lookup p := by
  induction l with
  | nil => rfl
  | cons kv t ih =>
    obtain ⟨k', v'⟩ := kv
    by_cases hkq : k' = q
    · subst hkq
      simp [List.filter_cons, List.lookup, beq_eq_false_iff_ne.mpr hpq, ih]
    · by_cases hpk : p = k'
      · subst hpk
        simp [List.filter_cons, bne_iff_ne, hkq, List.lookup]
      · simp [List.filter_cons, bne_iff_ne, hkq, List.lookup,
              beq_eq_false_iff_ne.mpr hpk, ih]

theorem removeFile_readText (fs : FS) (q p : FsPath) :
    (fs.removeFile q).readText p = if p = q then none else fs.readText p := by
  by_cases hpq : p = q
  · subst hpq
    simp [FS.removeFile, FS.readText, lookup_filter_self]
  · simp [FS.removeFile, FS.readText, lookup_filter_other hpq, hpq]

theorem removeFile_readJson (fs : FS) (q p : FsPath) :
    (fs.removeFile q).readJson p =
      if p = q then .error () else fs.readJson p := by
  by_cases hpq : p = q
  · subst hpq
    simp [FS.removeFile, FS.readJson, lookup_filter_self]
  · simp [FS.removeFile, FS.readJson, lookup_filter_other hpq, hpq]

theorem removeFile_isFile (fs : FS) (q p : FsPath) :
    (fs.removeFile q).isFile p = if p = q then false else fs.isFile p := by
  unfold FS.isFile FS.filePaths FS.removeFile
  by_cases hpq : p = q <;>
    simp [hpq, mem_map_fst_filter_ne]

theorem removeFile_pathExists (fs : FS) (q p : FsPath) :
    (fs.removeFile q).pathExists p =
      if p = q then fs.isDir p else fs.pathExists p := by
  unfold FS.pathExists FS.allPaths FS.isDir FS.filePaths FS.removeFile
  by_cases hpq : p = q <;>
    simp [hpq, mem_map_fst_filter_ne]

theorem removeFile_isDir (fs : FS) (q p : FsPath) :
    (fs.removeFile q).isDir p = fs.isDir p := rfl

theorem removeFile_unlinkFails (fs : FS) (q p : FsPath) :
    (fs.removeFile q).unlinkFails p = fs.unlinkFails p := rfl

theorem clearLogsDirGo_ok (d : FsPath) (ns : List String) (fs : FS)
    (h : ∀ n ∈ ns, fs.unlinkFails (d ++ [n]) = false) :
    clearLogsDirGo d ns fs =
      (true, ns.foldl (fun s n => s.removeFile (d ++ [n])) fs) := by
  induction ns generalizing fs with
  | nil => rfl
  | cons n t ih =>
    have h0 : fs.unlinkFails (d ++ [n]) = false := h n (by simp)
    have ht : ∀ m ∈ t, (fs.removeFile (d ++ [n])).unlinkFails (d ++ [m]) = false := by
      intro m hm
      rw [removeFile_unlinkFails]
      exact h m (by simp [hm])
    simp only [clearLogsDirGo, h0, List.foldl_cons]
    rw [if_neg (by simp)]
    exact ih (fs.removeFile (d ++ [n])) ht

theorem foldl_remove_preserve (d : FsPath) (ns : List String) (fs : FS)
    (p : FsPath) (hp : ∀ n ∈ ns, p ≠ d ++ [n]) :
    (ns.foldl (fun s n => s.removeFile (d ++ [n])) fs).readText p =
        fs.readText p ∧
    (ns.foldl (fun s n => s.removeFile (d ++ [n])) fs).readJson p =
        fs.readJson p ∧
    (ns.foldl (fun s n => s.removeFile (d ++ [n])) fs).pathExists p =
        fs.pathExists p ∧
    (ns.foldl (fun s n => s.removeFile (d ++ [n])) fs).isFile p =
        fs.isFile p := by
  induction ns generalizing fs with
  | nil => exact ⟨rfl, rfl, rfl, rfl⟩
  | cons n t ih =>
    have h0 : p ≠ d ++ [n] := hp n (by simp)
    have ht : ∀ m ∈ t, p ≠ d ++ [m] := fun m hm => hp m (by simp [hm])
    simp only [List.foldl_cons]
    obtain ⟨h1, h2, h3, h4⟩ := ih (fs.removeFile (d ++ [n])) ht
    refine ⟨h1.trans ?_, h2.trans ?_, h3.trans ?_, h4.trans ?_⟩
    · rw [removeFile_readText, if_neg h0]
    · rw [removeFile_readJson, if_neg h0]
    · rw [removeFile_pathExists, if_neg h0]
    · rw [removeFile_isFile, if_neg h0]

theorem foldl_remove_isFile_false (d : FsPath) (ns : List String) (fs : FS)
    (q : FsPath) (hq : fs.isFile q = false) :
    (ns.foldl (fun s n => s.removeFile (d ++ [n])) fs).isFile q = false := by
  induction ns generalizing fs with
  | nil => exact hq
  | cons n t ih =>
    simp only [List.foldl_cons]
    apply ih
    rw [removeFile_isFile]
    by_cases hqe : q = d ++ [n] <;> simp [hqe, hq]

theorem foldl_remove_pathExists_false (d : FsPath) (ns : List String)
    (fs : FS) (q : FsPath) (hq : fs.pathExists q = false) :
    (ns.foldl (fun s n => s.removeFile (d ++ [n])) fs).pathExists q =
      false := by
  induction ns generalizing fs with
  | nil => exact hq
  | cons n t ih =>
    simp only [List.foldl_cons]
    apply ih
    rw [removeFile_pathExists]
    by_cases hqe : q = d ++ [n]
    · subst hqe
      have : fs.isDir (d ++ [n]) = false := by
        unfold FS.pathExists FS.allPaths at hq
        unfold FS.isDir
        simp only [decide_eq_false_iff_not, List.mem_append] at hq ⊢
        exact fun hm => hq (Or.inl hm)
      simp [this]
    · simp [hqe, hq]

theorem foldl_remove_removes (d : FsPath) (ns : List String) (fs : FS)
    (n : String) (hn : n ∈ ns)
    (hdir : ∀ m ∈ ns, fs.isDir (d ++ [m]) = false) :
    (ns.foldl (fun s n => s.removeFile (d ++ [n])) fs).isFile (d ++ [n]) =
        false ∧
    (ns.foldl (fun s n => s.removeFile (d ++ [n])) fs).pathExists (d ++ [n]) =
        false := by
  induction ns generalizing fs with
  | nil => simp at hn
  | cons m t ih =>
    simp only [List.foldl_cons]
    by_cases hnm : n = m
    · subst hnm
      have hfile : (fs.removeFile (d ++ [n])).isFile (d ++ [n]) = false := by
        rw [removeFile_isFile]; simp
      have hpath : (fs.removeFile (d ++ [n])).pathExists (d ++ [n]) = false := by
        rw [removeFile_pathExists]
        simpa using hdir n (by simp)
      exact ⟨foldl_remove_isFile_false d t _ _ hfile,
             foldl_remove_pathExists_false d t _ _ hpath⟩
    · have hnt : n ∈ t := by
        rcases List.mem_cons.mp hn with h | h
        · exact absurd h hnm
        · exact h
      exact ih (fs.removeFile (d ++ [m])) hnt
        (fun m' hm' => by
          rw [removeFile_isDir]; exact hdir m' (by simp [hm']))

/-- What the claims state about a successful `clear_logs` run on logs
directory `d`: it reports success, removes exactly the files matching
`*.log` in `d`, and leaves every other path untouched. -/
def ClearsExactlyLogs (fs : FS) (d : FsPath) (r : Bool × FS) : Prop :=
  r.1 = true
  ∧ (∀ n ∈ fs.globLogs d,
      r.2.isFile (d ++ [n]) = false ∧ r.2.pathExists (d ++ [n]) = false)
  ∧ (∀ p : FsPath, (∀ n ∈ fs.globLogs d, p ≠ d ++ [n]) →
      r.2.readText p = fs.readText p ∧ r.2.readJson p = fs.readJson p ∧
      r.2.pathExists p = fs.pathExists p)

theorem clearLogsInDir_spec (fs : FS) (d : FsPath)
    (hfail : ∀ n ∈ fs.globLogs d, fs.unlinkFails (d ++ [n]) = false) :
    ClearsExactlyLogs fs d (fs.clearLogsInDir d) := by
  have hdir : ∀ n ∈ fs.globLogs d, fs.isDir (d ++ [n]) = false := by
    intro n hn
    have := hfail n hn
    unfold FS.unlinkFails at this
    exact (Bool.or_eq_false_iff.mp this).2
  unfold FS.clearLogsInDir
  rw [clearLogsDirGo_ok d (fs.globLogs d) fs hfail]
  refine ⟨rfl, ?_, ?_⟩
  · intro n hn
    exact foldl_remove_removes d (fs.globLogs d) fs n hn hdir
  · intro p hp
    obtain ⟨h1, h2, h3, _⟩ := foldl_remove_preserve d (fs.globLogs d) fs p hp
    exact ⟨h1, h2, h3⟩

/-! Lemmas about the `instance.cfg` parse loop. -/

theorem cfgStep_eq (config : List (String × String)) (l : String) :
    cfgStep config l =
      if isAssignLine l then dictSet config (keyOf l) (assignedValue l)
      else config := rfl

theorem cfgStep_bracket (config : List (String × String)) (l : String)
    (h : strStarts (pyStrip l) "[" = true) : cfgStep config l = config := by
  unfold cfgStep
  rw [if_neg]
  simp [h]

theorem parseCfgLines_ignores_bracket (pre : List String) (l : String)
    (post : List String) (h : strStarts (pyStrip l) "[" = true) :
    parseCfgLines (pre ++ l :: post) = parseCfgLines (pre ++ post) := by
  unfold parseCfgLines
  rw [List.foldl_append, List.foldl_append, List.foldl_cons,
      cfgStep_bracket _ _ h]

theorem lookup_parse_foldl (k v : String) :
    ∀ (lines : List String) (acc : List (String × String)),
      (∀ l ∈ lines, assignsKey l k = true → assignedValue l = v) →
      (lines.foldl cfgStep acc).lookup k =
        if lines.any (fun l => assignsKey l k) then some v
        else acc.lookup k := by
  intro lines
  induction lines with
  | nil =>
    intro acc _
    simp
  | cons l t ih =>
    intro acc hall
    have hall_t : ∀ l' ∈ t, assignsKey l' k = true → assignedValue l' = v :=
      fun l' h1 h2 => hall l' (by simp [h1]) h2
    simp only [List.foldl_cons, List.any_cons]
    by_cases hassign : assignsKey l k = true
    · have hA : isAssignLine l = true := by
        have := hassign
        unfold assignsKey at this
        exact (Bool.and_eq_true _ _).mp this |>.1
      have hk : (keyOf l == k) = true := by
        have := hassign
        unfold assignsKey at this
        exact (Bool.and_eq_true _ _).mp this |>.2
      have hkey : keyOf l = k := eq_of_beq hk
      have hv : assignedValue l = v := hall l (by simp) hassign
      have hstep : cfgStep acc l = dictSet acc k v := by
        rw [cfgStep_eq, if_pos hA, hkey, hv]
      rw [hstep, ih (dictSet acc k v) hall_t]
      simp only [hassign, Bool.true_or, if_true]
      by_cases hany : (t.any fun l => assignsKey l k) = true <;>
        simp [hany, lookup_dictSet_self]
    · have hstep : (cfgStep acc l).lookup k = acc.lookup k := by
        rw [cfgStep_eq]
        by_cases hA : isAssignLine l = true
        · rw [if_pos hA]
          have hne : k ≠ keyOf l := by
            intro he
            exact hassign (by
              unfold assignsKey
              simp [hA, he])
          exact lookup_dictSet_ne _ _ _ _ hne
        · rw [if_neg hA]
      have haf : assignsKey l k = false := Bool.eq_false_iff.mpr hassign
      rw [ih (cfgStep acc l) hall_t, hstep]
      simp only [haf, Bool.false_or]

theorem lookup_parseCfgLines (lines : List String) (k v : String)
    (hsome : lines.any (fun l => assignsKey l k) = true)
    (hall : ∀ l ∈ lines, assignsKey l k = true → assignedValue l = v) :
    (parseCfgLines lines).lookup k = some v := by
  unfold parseCfgLines
  rw [lookup_parse_foldl k v lines [] hall, if_pos hsome]

/-! Lemmas about the sort used by `VanillaLauncher.get_logs`. -/

theorem sortedByMtimeDesc_head_max (fs : FS) (d : FsPath) (ns : List String)
    (f : String) (rest : List String)
    (h : sortedByMtimeDesc fs d ns = f :: rest) :
    f ∈ ns ∧ ∀ g ∈ ns, fs.mtime (d ++ [g]) ≤ fs.mtime (d ++ [f]) := by
  haveI htot : IsTotal String
      (fun a b => fs.mtime (d ++ [b]) ≤ fs.mtime (d ++ [a])) :=
    ⟨fun a b => le_total (fs.mtime (d ++ [b])) (fs.mtime (d ++ [a]))⟩
  haveI htr : IsTrans String
      (fun a b => fs.mtime (d ++ [b]) ≤ fs.mtime (d ++ [a])) :=
    ⟨fun _ _ _ hab hbc => le_trans hbc hab⟩
  have hperm := List.perm_insertionSort
    (fun a b => fs.mtime (d ++ [b]) ≤ fs.mtime (d ++ [a])) ns
  have hsorted := List.sorted_insertionSort
    (fun a b => fs.mtime (d ++ [b]) ≤ fs.mtime (d ++ [a])) ns
  unfold sortedByMtimeDesc at h
  rw [h] at hperm hsorted
  constructor
  · exact hperm.mem_iff.mp (by simp)
  · intro g hg
    rcases List.mem_cons.mp (hperm.mem_iff.mpr hg) with he | ht
    · subst he; exact le_refl _
    · exact List.rel_of_sorted_cons hsorted g ht

/-! Additional filesystem lemmas for the claim proofs. -/

theorem mem_childNames_of_isDir (fs : FS) (p : FsPath) (n : String)
    (h : fs.isDir (p ++ [n]) = true) : n ∈ fs.childNames p := by
  unfold FS.isDir at h
  have hmem : (p ++ [n]) ∈ fs.allPaths := by
    unfold FS.allPaths
    exact List.mem_append.mpr (Or.inl (of_decide_eq_true h))
  unfold FS.childNames
  rw [List.mem_dedup]
  apply List.mem_map.mpr
  refine ⟨p ++ [n], List.mem_filter.mpr ⟨hmem, ?_⟩, ?_⟩
  · simp [List.dropLast_concat]
  · simp [List.getLastD_concat]

theorem wf_parent (fs : FS) (q : FsPath) (s : String) (hwf : fs.wf = true)
    (h : fs.pathExists (q ++ [s]) = true) : fs.pathExists q = true := by
  unfold FS.wf at hwf
  rw [List.all_eq_true] at hwf
  have hq := hwf (q ++ [s]) (by
    unfold FS.pathExists at h
    exact of_decide_eq_true h)
  rcases Bool.or_eq_true _ _ ▸ hq with h1 | h1
  · simp at h1
  · rwa [List.dropLast_concat] at h1

theorem mmc_logs_dir_exists (fs : FS) (lp : FsPath) (nm : String) (d : FsPath)
    (h : MultiMCLauncher.get_instance_logs_directory fs lp nm = some d) :
    fs.pathExists d = true := by
  unfold MultiMCLauncher.get_instance_logs_directory at h
  by_cases h1 : fs.pathExists (lp ++ ["instances", nm]) = true
  · rw [if_pos h1] at h
    by_cases h2 :
        fs.pathExists (lp ++ ["instances", nm] ++ [".minecraft", "logs"]) = true
    · rw [if_pos h2] at h
      injection h with h
      subst h
      exact h2
    · rw [if_neg h2] at h
      exact absurd h (by simp)
  · rw [if_neg h1] at h
    exact absurd h (by simp)

theorem cf_logs_dir_exists (fs : FS) (lp : FsPath) (nm : String) (d : FsPath)
    (h : CurseForgeLauncher.get_instance_logs_directory fs lp nm = some d) :
    fs.pathExists d = true := by
  unfold CurseForgeLauncher.get_instance_logs_directory at h
  by_cases h1 : fs.pathExists (lp ++ ["Instances", nm]) = true
  · simp only [h1, if_true] at h
    by_cases h2 :
        fs.pathExists (lp ++ ["Instances", nm, ".minecraft", "logs"]) = true
    · simp [h2] at h
      subst h
      exact h2
    · by_cases h3 : fs.pathExists (lp ++ ["Instances", nm, "logs"]) = true
      · simp [h2, h3] at h
        subst h
        exact h3
      · simp [h2, h3] at h
  · simp [h1] at h

theorem vanilla_logs_dir_exists (fs : FS) (lp : FsPath) (nm : String)
    (d : FsPath)
    (h : VanillaLauncher.get_instance_logs_directory fs lp nm =
      Except.ok (some d)) : fs.pathExists d = true := by
  unfold VanillaLauncher.get_instance_logs_directory at h
  by_cases h1 : fs.pathExists (lp ++ ["launcher_profiles.json"]) = true
  · simp only [h1, if_true] at h
    cases hrj : fs.readJson (lp ++ ["launcher_profiles.json"]) with
    | error e => simp [hrj] at h
    | ok data =>
      simp only [hrj] at h
      cases hpd : data.pyDictGet "profiles" (Json.obj []) with
      | error e => simp [hpd, Bind.bind, Except.bind] at h
      | ok profiles =>
        simp only [hpd, Bind.bind, Except.bind] at h
        cases hpo : profiles.pyGetOpt nm with
        | error e => simp [hpo] at h
        | ok profile =>
          simp only [hpo] at h
          cases profile with
          | none => simp [pure, Except.pure] at h
          | some p =>
            by_cases htr : p.pyTruthy = true
            · simp only [htr, if_true] at h
              cases p with
              | null => simp [Json.pyTruthy] at htr
              | bool b => simp [Bind.bind, Except.bind] at h
              | num n => simp [Bind.bind, Except.bind] at h
              | str sv => simp [Bind.bind, Except.bind] at h
              | arr xs => simp [Bind.bind, Except.bind] at h
              | obj kvs =>
                cases hgd : lookupLast kvs "gameDir" with
                | none =>
                  simp only [hgd, Bind.bind, Except.bind, pure,
                    Except.pure] at h
                  by_cases hl : fs.pathExists (lp ++ ["logs"]) = true
                  · simp [hl] at h
                    subst h
                    exact hl
                  · simp [hl] at h
                | some g =>
                  cases g with
                  | str sv =>
                    simp only [hgd, Bind.bind, Except.bind, pure,
                      Except.pure] at h
                    by_cases hl :
                        fs.pathExists (pathOfString sv ++ ["logs"]) = true
                    · simp [hl] at h
                      subst h
                      exact hl
                    · simp [hl] at h
                  | null => simp [hgd, Bind.bind, Except.bind] at h
                  | bool b => simp [hgd, Bind.bind, Except.bind] at h
                  | num n => simp [hgd, Bind.bind, Except.bind] at h
                  | arr xs => simp [hgd, Bind.bind, Except.bind] at h
                  | obj kvs2 => simp [hgd, Bind.bind, Except.bind] at h
            · simp only [if_neg htr] at h
              simp [pure, Except.pure] at h
  · simp [h1] at h

theorem pair_unique_of_nodup_fst {α β : Type} {l : List (α × β)} {k : α}
    {v1 v2 : β} (h1 : (k, v1) ∈ l) (h2 : (k, v2) ∈ l)
    (hnd : (l.map Prod.fst).Nodup) : v1 = v2 := by
  induction l with
  | nil => simp at h1
  | cons e t ih =>
    simp only [List.map_cons, List.nodup_cons] at hnd
    rcases List.mem_cons.mp h1 with ha | ha <;>
      rcases List.mem_cons.mp h2 with hb | hb
    · rw [← ha] at hb
      exact (Prod.mk.injEq _ _ _ _ ▸ hb).2.symm
    · exact absurd (List.mem_map.mpr ⟨(k, v2), hb, by rw [← ha]⟩) hnd.1
    · exact absurd (List.mem_map.mpr ⟨(k, v1), ha, by rw [← hb]⟩) hnd.1
    · exact ih ha hb hnd.2

theorem detectPick_fst (e : String × Except String BaseLauncher)
    (x : String × BaseLauncher) (hx : detectPick e = some x) : x.1 = e.1 := by
  obtain ⟨e1, e2⟩ := e
  cases e2 with
  | error m => simp [detectPick] at hx
  | ok l =>
    cases hd : l.detect with
    | error m => simp [detectPick, hd] at hx
    | ok b =>
      cases b
      · simp [detectPick, hd] at hx
      · simp only [detectPick, hd] at hx
        injection hx with hx
        rw [← hx]

/-- Claim C1: constructing the manager isolates per-product failures.  A
supported product whose adapter construction raises, or whose `detect()`
raises, is merely absent from the detected mapping, while every other
product whose `detect()` returns true is present (mapped to its adapter).
The supported list of `manager.py` has pairwise-distinct product names,
which is the `hnd` hypothesis. -/
theorem manager_detect_failure_isolation
    (supported : List (String × Except String BaseLauncher))
    (hnd : (supported.map Prod.fst).Nodup) :
    (∀ nm msg, (nm, Except.error msg) ∈ supported →
      (LauncherManager.detect_all_launchers supported).lookup nm = none)
    ∧ (∀ nm launcher msg, (nm, Except.ok launcher) ∈ supported →
        launcher.detect = Except.error msg →
        (LauncherManager.detect_all_launchers supported).lookup nm = none)
    ∧ (∀ nm launcher, (nm, Except.ok launcher) ∈ supported →
        launcher.detect = Except.ok true →
        (LauncherManager.detect_all_launchers supported).lookup nm =
          some launcher) := by
  rw [detect_all_eq_filterMap supported hnd]
  have hsub : ((supported.filterMap detectPick).map Prod.fst).Sublist
      (supported.map Prod.fst) :=
    map_fst_filterMap_sublist detectPick detectPick_fst supported
  refine ⟨?_, ?_, ?_⟩
  · intro nm msg hmem
    apply lookup_not_mem
    intro hin
    obtain ⟨x, hx, hfst⟩ := List.mem_map.mp hin
    obtain ⟨e, he, hpe⟩ := List.mem_filterMap.mp hx
    obtain ⟨e1, e2⟩ := e
    have he1 : e1 = nm := by rw [← hfst, detectPick_fst _ _ hpe]
    subst he1
    have he2 : e2 = Except.error msg := pair_unique_of_nodup_fst he hmem hnd
    rw [he2] at hpe
    simp [detectPick] at hpe
  · intro nm launcher msg hmem hdet
    apply lookup_not_mem
    intro hin
    obtain ⟨x, hx, hfst⟩ := List.mem_map.mp hin
    obtain ⟨e, he, hpe⟩ := List.mem_filterMap.mp hx
    obtain ⟨e1, e2⟩ := e
    have he1 : e1 = nm := by rw [← hfst, detectPick_fst _ _ hpe]
    subst he1
    have he2 : e2 = Except.ok launcher := pair_unique_of_nodup_fst he hmem hnd
    rw [he2] at hpe
    simp [detectPick, hdet] at hpe
  · intro nm launcher hmem hdet
    apply lookup_of_mem_nodup
    · exact List.mem_filterMap.mpr
        ⟨(nm, Except.ok launcher), hmem, by simp [detectPick, hdet]⟩
    · exact hsub.nodup hnd

/-- Adapter whose `detect()` succeeds with true (C1 witness data). -/
def okDetectL : BaseLauncher :=
  { detect := Except.ok true, get_logs := fun _ => Except.ok none,
    get_launcher_info := Except.error "unused" }

/-- Adapter whose `detect()` raises (C1 witness data). -/
def failDetectL : BaseLauncher :=
  { detect := Except.error "probe failed",
    get_logs := fun _ => Except.ok none,
    get_launcher_info := Except.error "unused" }

/-- Supported list with a failing constructor and a failing `detect` (C1). -/
def supportedC1 : List (String × Except String BaseLauncher) :=
  [("vanilla", Except.ok okDetectL), ("multimc", Except.error "ctor boom"),
   ("prism", Except.ok failDetectL)]

/-- Witness for C1 at a concrete supported list. -/
theorem manager_detect_failure_isolation_witness :
    (supportedC1.map Prod.fst).Nodup ∧
    (LauncherManager.detect_all_launchers supportedC1).lookup "multimc" = none ∧
    (LauncherManager.detect_all_launchers supportedC1).lookup "prism" = none ∧
    (LauncherManager.detect_all_launchers supportedC1).lookup "vanilla" =
      some okDetectL := by
  have hnd : (supportedC1.map Prod.fst).Nodup := by decide
  refine ⟨hnd, ?_, ?_, ?_⟩
  · exact (manager_detect_failure_isolation supportedC1 hnd).1 "multimc"
      "ctor boom" (by simp [supportedC1])
  · exact (manager_detect_failure_isolation supportedC1 hnd).2.1 "prism"
      failDetectL "probe failed" (by simp [supportedC1]) rfl
  · exact (manager_detect_failure_isolation supportedC1 hnd).2.2 "vanilla"
      okDetectL (by simp [supportedC1]) rfl

/-- Claim C3: Prism is a behavioural subtype of MultiMC.  Over any
filesystem state and any common install path, Prism's `get_instances`
and `get_logs` agree with MultiMC's exactly (the listing and log logic is
inherited unchanged), while the launcher descriptors keep their own
`launcher_type` tags. -/
theorem prism_multimc_shared_behavior (fs : FS) (lp : FsPath) (nm : String) :
    PrismLauncherHandler.get_instances fs lp =
      MultiMCLauncher.get_instances fs lp
    ∧ PrismLauncherHandler.get_logs fs lp nm =
      MultiMCLauncher.get_logs fs lp nm
    ∧ (PrismLauncherHandler.get_launcher_info fs lp).launcher_type = "prism"
    ∧ (MultiMCLauncher.get_launcher_info fs lp).launcher_type = "multimc" :=
  ⟨rfl, rfl, rfl, rfl⟩

/-- Claim C5: every adapter's `detect()` is a total boolean marker test:
true exactly when the product marker exists under the install path, and
false whenever the install path itself is absent (on a prefix-closed
filesystem state). -/
theorem detect_marker_characterization (fs : FS) (lp : FsPath) :
    (VanillaLauncher.detect fs lp = true ↔
      fs.pathExists (lp ++ ["launcher_profiles.json"]) = true)
    ∧ (MultiMCLauncher.detect fs lp = true ↔
      fs.pathExists (lp ++ ["instances"]) = true)
    ∧ (PrismLauncherHandler.detect fs lp = true ↔
      fs.pathExists (lp ++ ["instances"]) = true)
    ∧ (CurseForgeLauncher.detect fs lp = true ↔
      fs.pathExists (lp ++ ["Instances"]) = true)
    ∧ (fs.wf = true → fs.pathExists lp = false →
      VanillaLauncher.detect fs lp = false
      ∧ MultiMCLauncher.detect fs lp = false
      ∧ PrismLauncherHandler.detect fs lp = false
      ∧ CurseForgeLauncher.detect fs lp = false) := by
  refine ⟨Iff.rfl, Iff.rfl, Iff.rfl, Iff.rfl, ?_⟩
  intro hwf hnp
  have him : ∀ m : String, fs.pathExists (lp ++ [m]) = false := by
    intro m
    cases hx : fs.pathExists (lp ++ [m])
    · rfl
    · exact absurd (wf_parent fs lp m hwf hx) (by simp [hnp])
  exact ⟨him _, him _, him _, him _⟩

/-- Well-formed one-directory filesystem used by the C5 witness. -/
def fsC5 : FS :=
  { dirs := [[]], textFiles := [], jsonFiles := [], mtimes := [],
    failUnlink := [], whichJava := none }

/-- Witness for C5 at a concrete state with a missing install path. -/
theorem detect_marker_characterization_witness :
    fsC5.wf = true ∧ fsC5.pathExists ["nowhere"] = false ∧
    (VanillaLauncher.detect fsC5 ["nowhere"] = false
     ∧ MultiMCLauncher.detect fsC5 ["nowhere"] = false
     ∧ PrismLauncherHandler.detect fsC5 ["nowhere"] = false
     ∧ CurseForgeLauncher.detect fsC5 ["nowhere"] = false) :=
  ⟨by decide, by decide,
   (detect_marker_characterization fsC5 ["nowhere"]).2.2.2.2
     (by decide) (by decide)⟩

theorem map_fst_filterMap_infoPick (l : List (String × BaseLauncher)) :
    (l.filterMap infoPick).map Prod.fst =
      (l.filter (fun e =>
        match e.2.get_launcher_info with
        | .ok _ => true
        | .error _ => false)).map Prod.fst := by
  induction l with
  | nil => rfl
  | cons e t ih =>
    cases hinfo : e.2.get_launcher_info <;>
      simp [List.filterMap_cons, List.filter_cons, infoPick, hinfo, ih]

/-- Claim C9: `get_launcher_infos` keeps exactly the detected adapters
whose `get_launcher_info()` succeeded, each mapped to its info: a raising
adapter is omitted entirely (no placeholder), captured by the `filterMap`
characterisation, and the keys of the result are exactly the detected
types whose call succeeded. -/
theorem manager_infos_omits_failures (detected : List (String × BaseLauncher))
    (hnd : (detected.map Prod.fst).Nodup) :
    LauncherManager.get_launcher_infos detected = detected.filterMap infoPick
    ∧ (LauncherManager.get_launcher_infos detected).map Prod.fst =
      (detected.filter (fun e =>
        match e.2.get_launcher_info with
        | .ok _ => true
        | .error _ => false)).map Prod.fst := by
  refine ⟨infos_eq_filterMap detected hnd, ?_⟩
  rw [infos_eq_filterMap detected hnd]
  exact map_fst_filterMap_infoPick detected

/-- Adapter whose `get_launcher_info()` succeeds (C9 witness data). -/
def infoOkL : BaseLauncher :=
  { detect := Except.ok true, get_logs := fun _ => Except.ok none,
    get_launcher_info := Except.ok
      { name := "Minecraft Launcher", version := none, path := ["mc"],
        java_executable := none, launcher_type := "vanilla" } }

/-- Adapter whose `get_launcher_info()` raises (C9 witness data). -/
def infoFailL : BaseLauncher :=
  { detect := Except.ok true, get_logs := fun _ => Except.ok none,
    get_launcher_info := Except.error "boom" }

/-- Detected mapping for the C9 witness. -/
def detectedC9 : List (String × BaseLauncher) :=
  [("vanilla", infoOkL), ("curseforge", infoFailL)]

/-- Witness for C9 at a concrete detected mapping. -/
theorem manager_infos_omits_failures_witness :
    (detectedC9.map Prod.fst).Nodup ∧
    LauncherManager.get_launcher_infos detectedC9 =
      detectedC9.filterMap infoPick ∧
    detectedC9.filterMap infoPick =
      [("vanilla",
        { name := "Minecraft Launcher", version := none, path := ["mc"],
          java_executable := none, launcher_type := "vanilla" })] :=
  ⟨by decide, (manager_infos_omits_failures detectedC9 (by decide)).1, rfl⟩

theorem append_ne_empty_left {s : String} (t : String) (h : s ≠ "") :
    s ++ t ≠ "" := by
  intro he
  apply h
  have hd := congrArg String.data he
  rw [String.data_append] at hd
  exact String.ext (List.append_eq_nil.mp hd).1

/-- Adapter returning empty log content (C2 counterexample data). -/
def emptyLogAdapter : BaseLauncher :=
  { detect := Except.ok true, get_logs := fun _ => Except.ok (some ""),
    get_launcher_info := Except.error "unused" }

/-- Claim C2 counterexample: when the adapter's log content is the empty
string, `LauncherManager.get_logs` returns it verbatim, so the result is
the empty string — refuting "returns a non-empty string" for every input. -/
theorem manager_get_logs_empty_cex :
    LauncherManager.get_logs [("vanilla", emptyLogAdapter)] "vanilla" "inst" =
      "" := rfl

/-- Claim C2 (amended): `LauncherManager.get_logs` is total (it never
raises and never returns `none`, being a plain `String`-valued function);
it returns a non-empty diagnostic in the three failure cases — unknown
launcher type, adapter returning `none`, adapter raising — and otherwise
returns the adapter's log content verbatim, which may be empty. -/
theorem manager_get_logs_total_diagnostics
    (detected : List (String × BaseLauncher))
    (launcher_type instance_name : String) :
    (detected.lookup launcher_type = none →
      LauncherManager.get_logs detected launcher_type instance_name =
        "Launcher " ++ launcher_type ++ " not found"
      ∧ LauncherManager.get_logs detected launcher_type instance_name ≠ "")
    ∧ (∀ launcher, detected.lookup launcher_type = some launcher →
        (∀ msg, launcher.get_logs instance_name = Except.error msg →
          LauncherManager.get_logs detected launcher_type instance_name =
            "Error retrieving logs: " ++ msg
          ∧ LauncherManager.get_logs detected launcher_type instance_name ≠ "")
        ∧ (launcher.get_logs instance_name = Except.ok none →
          LauncherManager.get_logs detected launcher_type instance_name =
            "No logs found for instance " ++ instance_name
          ∧ LauncherManager.get_logs detected launcher_type instance_name ≠ "")
        ∧ (∀ logs, launcher.get_logs instance_name = Except.ok (some logs) →
          LauncherManager.get_logs detected launcher_type instance_name =
            logs)) := by
  refine ⟨?_, ?_⟩
  · intro hlk
    have he : LauncherManager.get_logs detected launcher_type instance_name =
        "Launcher " ++ launcher_type ++ " not found" := by
      unfold LauncherManager.get_logs
      rw [hlk]
    refine ⟨he, ?_⟩
    rw [he]
    exact append_ne_empty_left _
      (append_ne_empty_left _ (by decide))
  · intro launcher hlk
    refine ⟨?_, ?_, ?_⟩
    · intro msg hgl
      have he : LauncherManager.get_logs detected launcher_type instance_name =
          "Error retrieving logs: " ++ msg := by
        unfold LauncherManager.get_logs
        rw [hlk]
        simp only [hgl]
      exact ⟨he, he ▸ append_ne_empty_left _ (by decide)⟩
    · intro hgl
      have he : LauncherManager.get_logs detected launcher_type instance_name =
          "No logs found for instance " ++ instance_name := by
        unfold LauncherManager.get_logs
        rw [hlk]
        simp only [hgl]
      exact ⟨he, he ▸ append_ne_empty_left _ (by decide)⟩
    · intro logs hgl
      unfold LauncherManager.get_logs
      rw [hlk]
      simp only [hgl]

/-- Witness for C2 (amended) at an empty detected mapping. -/
theorem manager_get_logs_total_diagnostics_witness :
    ([] : List (String × BaseLauncher)).lookup "steam" = none ∧
    (LauncherManager.get_logs [] "steam" "x" =
      "Launcher " ++ "steam" ++ " not found" ∧
     LauncherManager.get_logs [] "steam" "x" ≠ "") :=
  ⟨rfl, (manager_get_logs_total_diagnostics [] "steam" "x").1 rfl⟩

/-- Claim C6: for each adapter, when the resolved logs directory is `d`
and no deletion in it fails, `clear_logs` deletes exactly the `*.log`
files of `d`, leaves every other path (including non-`*.log` files in
`d`) untouched, and returns true. -/
theorem clear_logs_deletes_exactly_logs (fs : FS) (lp : FsPath) (nm : String)
    (d : FsPath)
    (hfail : ∀ n ∈ fs.globLogs d, fs.unlinkFails (d ++ [n]) = false) :
    (MultiMCLauncher.get_instance_logs_directory fs lp nm = some d →
      ClearsExactlyLogs fs d (MultiMCLauncher.clear_logs fs lp nm))
    ∧ (PrismLauncherHandler.get_instance_logs_directory fs lp nm = some d →
      ClearsExactlyLogs fs d (PrismLauncherHandler.clear_logs fs lp nm))
    ∧ (CurseForgeLauncher.get_instance_logs_directory fs lp nm = some d →
      ClearsExactlyLogs fs d (CurseForgeLauncher.clear_logs fs lp nm))
    ∧ (VanillaLauncher.get_instance_logs_directory fs lp nm =
        Except.ok (some d) →
      VanillaLauncher.clear_logs fs lp nm = Except.ok (fs.clearLogsInDir d)
      ∧ ClearsExactlyLogs fs d (fs.clearLogsInDir d)) := by
  refine ⟨?_, ?_, ?_, ?_⟩
  · intro hres
    have hex := mmc_logs_dir_exists fs lp nm d hres
    unfold MultiMCLauncher.clear_logs
    simp only [hres, hex, if_true]
    exact clearLogsInDir_spec fs d hfail
  · intro hres
    have hres2 : MultiMCLauncher.get_instance_logs_directory fs lp nm =
        some d := hres
    have hex := mmc_logs_dir_exists fs lp nm d hres2
    unfold PrismLauncherHandler.clear_logs MultiMCLauncher.clear_logs
    simp only [hres2, hex, if_true]
    exact clearLogsInDir_spec fs d hfail
  · intro hres
    have hex := cf_logs_dir_exists fs lp nm d hres
    unfold CurseForgeLauncher.clear_logs
    simp only [hres, hex, if_true]
    exact clearLogsInDir_spec fs d hfail
  · intro hres
    have hex := vanilla_logs_dir_exists fs lp nm d hres
    constructor
    · unfold VanillaLauncher.clear_logs
      simp only [hres, Bind.bind, Except.bind, hex, if_true, pure,
        Except.pure]
    · exact clearLogsInDir_spec fs d hfail

/-- Filesystem for the C6 witness: a MultiMC instance whose logs
directory holds two plain `*.log` files, one dot-prefixed `*.log` file
(which `pathlib`'s glob also matches) and one `keep.txt`. -/
def fsC6 : FS :=
  { dirs := [[], ["mm"], ["mm", "instances"], ["mm", "instances", "i"],
             ["mm", "instances", "i", ".minecraft"],
             ["mm", "instances", "i", ".minecraft", "logs"]],
    textFiles :=
      [(["mm", "instances", "i", ".minecraft", "logs", "latest.log"], "L"),
       (["mm", "instances", "i", ".minecraft", "logs", "old.log"], "O"),
       (["mm", "instances", "i", ".minecraft", "logs", ".hidden.log"], "H"),
       (["mm", "instances", "i", ".minecraft", "logs", "keep.txt"], "K")],
    jsonFiles := [], mtimes := [], failUnlink := [], whichJava := none }

/-- Logs directory of the C6 witness instance. -/
def dC6 : FsPath := ["mm", "instances", "i", ".minecraft", "logs"]

/-- Witness for C6 at a concrete MultiMC state. -/
theorem clear_logs_deletes_exactly_logs_witness :
    (∀ n ∈ fsC6.globLogs dC6, fsC6.unlinkFails (dC6 ++ [n]) = false) ∧
    MultiMCLauncher.get_instance_logs_directory fsC6 ["mm"] "i" = some dC6 ∧
    ClearsExactlyLogs fsC6 dC6 (MultiMCLauncher.clear_logs fsC6 ["mm"] "i") := by
  have hfail : ∀ n ∈ fsC6.globLogs dC6,
      fsC6.unlinkFails (dC6 ++ [n]) = false := by decide
  have hres : MultiMCLauncher.get_instance_logs_directory fsC6 ["mm"] "i" =
      some dC6 := by decide
  exact ⟨hfail, hres,
    (clear_logs_deletes_exactly_logs fsC6 ["mm"] "i" dC6 hfail).1 hres⟩

/-- Claim C10: for each adapter, `clear_logs` returns true with the
filesystem unchanged when the resolved logs directory holds no `*.log`
file, so a true result does not imply a deletion; it returns
`(false, fs)` when the logs directory cannot be resolved; and when the
directory resolves and no deletion raises, the result is true — so false
can only arise from a failed resolution, a missing directory, or a
raising deletion. -/
theorem clear_logs_empty_glob_true (fs : FS) (lp : FsPath) (nm : String)
    (d : FsPath) :
    (MultiMCLauncher.get_instance_logs_directory fs lp nm = some d →
      (fs.globLogs d = [] → MultiMCLauncher.clear_logs fs lp nm = (true, fs))
      ∧ ((∀ n ∈ fs.globLogs d, fs.unlinkFails (d ++ [n]) = false) →
        (MultiMCLauncher.clear_logs fs lp nm).1 = true))
    ∧ (MultiMCLauncher.get_instance_logs_directory fs lp nm = none →
      MultiMCLauncher.clear_logs fs lp nm = (false, fs))
    ∧ (PrismLauncherHandler.get_instance_logs_directory fs lp nm = some d →
      (fs.globLogs d = [] →
        PrismLauncherHandler.clear_logs fs lp nm = (true, fs))
      ∧ ((∀ n ∈ fs.globLogs d, fs.unlinkFails (d ++ [n]) = false) →
        (PrismLauncherHandler.clear_logs fs lp nm).1 = true))
    ∧ (PrismLauncherHandler.get_instance_logs_directory fs lp nm = none →
      PrismLauncherHandler.clear_logs fs lp nm = (false, fs))
    ∧ (CurseForgeLauncher.get_instance_logs_directory fs lp nm = some d →
      (fs.globLogs d = [] →
        CurseForgeLauncher.clear_logs fs lp nm = (true, fs))
      ∧ ((∀ n ∈ fs.globLogs d, fs.unlinkFails (d ++ [n]) = false) →
        (CurseForgeLauncher.clear_logs fs lp nm).1 = true))
    ∧ (CurseForgeLauncher.get_instance_logs_directory fs lp nm = none →
      CurseForgeLauncher.clear_logs fs lp nm = (false, fs))
    ∧ (VanillaLauncher.get_instance_logs_directory fs lp nm =
        Except.ok (some d) →
      (fs.globLogs d = [] →
        VanillaLauncher.clear_logs fs lp nm = Except.ok (true, fs))
      ∧ ((∀ n ∈ fs.globLogs d, fs.unlinkFails (d ++ [n]) = false) →
        ∃ r, VanillaLauncher.clear_logs fs lp nm = Except.ok r ∧
          r.1 = true))
    ∧ (VanillaLauncher.get_instance_logs_directory fs lp nm =
        Except.ok none →
      VanillaLauncher.clear_logs fs lp nm = Except.ok (false, fs)) := by
  refine ⟨?_, ?_, ?_, ?_, ?_, ?_, ?_, ?_⟩
  · intro hres
    have hex := mmc_logs_dir_exists fs lp nm d hres
    constructor
    · intro hglob
      unfold MultiMCLauncher.clear_logs
      simp only [hres, hex, if_true]
      unfold FS.clearLogsInDir
      rw [hglob]
      rfl
    · intro hfail
      unfold MultiMCLauncher.clear_logs
      simp only [hres, hex, if_true]
      exact (clearLogsInDir_spec fs d hfail).1
  · intro hres
    unfold MultiMCLauncher.clear_logs
    simp only [hres]
  · intro hres
    have hres2 : MultiMCLauncher.get_instance_logs_directory fs lp nm =
        some d := hres
    have hex := mmc_logs_dir_exists fs lp nm d hres2
    constructor
    · intro hglob
      unfold PrismLauncherHandler.clear_logs MultiMCLauncher.clear_logs
      simp only [hres2, hex, if_true]
      unfold FS.clearLogsInDir
      rw [hglob]
      rfl
    · intro hfail
      unfold PrismLauncherHandler.clear_logs MultiMCLauncher.clear_logs
      simp only [hres2, hex, if_true]
      exact (clearLogsInDir_spec fs d hfail).1
  · intro hres
    have hres2 : MultiMCLauncher.get_instance_logs_directory fs lp nm =
        none := hres
    unfold PrismLauncherHandler.clear_logs MultiMCLauncher.clear_logs
    simp only [hres2]
  · intro hres
    have hex := cf_logs_dir_exists fs lp nm d hres
    constructor
    · intro hglob
      unfold CurseForgeLauncher.clear_logs
      simp only [hres, hex, if_true]
      unfold FS.clearLogsInDir
      rw [hglob]
      rfl
    · intro hfail
      unfold CurseForgeLauncher.clear_logs
      simp only [hres, hex, if_true]
      exact (clearLogsInDir_spec fs d hfail).1
  · intro hres
    unfold CurseForgeLauncher.clear_logs
    simp only [hres]
  · intro hres
    have hex := vanilla_logs_dir_exists fs lp nm d hres
    constructor
    · intro hglob
      unfold VanillaLauncher.clear_logs
      simp only [hres, Bind.bind, Except.bind, hex, if_true, pure,
        Except.pure]
      unfold FS.clearLogsInDir
      rw [hglob]
      rfl
    · intro hfail
      refine ⟨fs.clearLogsInDir d, ?_, (clearLogsInDir_spec fs d hfail).1⟩
      unfold VanillaLauncher.clear_logs
      simp only [hres, Bind.bind, Except.bind, hex, if_true, pure,
        Except.pure]
  · intro hres
    unfold VanillaLauncher.clear_logs
    simp only [hres, Bind.bind, Except.bind, pure, Except.pure]

/-- Filesystem for the C10 witness: the logs directory exists but holds
only `keep.txt`, no `*.log` file. -/
def fsC10 : FS :=
  { dirs := [[], ["mm"], ["mm", "instances"], ["mm", "instances", "i"],
             ["mm", "instances", "i", ".minecraft"],
             ["mm", "instances", "i", ".minecraft", "logs"]],
    textFiles :=
      [(["mm", "instances", "i", ".minecraft", "logs", "keep.txt"], "K")],
    jsonFiles := [], mtimes := [], failUnlink := [], whichJava := none }

/-- Logs directory of the C10 witness instance. -/
def dC10 : FsPath := ["mm", "instances", "i", ".minecraft", "logs"]

/-- Witness for C10: zero `*.log` files, result `(true, fs)` unchanged. -/
theorem clear_logs_empty_glob_true_witness :
    MultiMCLauncher.get_instance_logs_directory fsC10 ["mm"] "i" =
      some dC10 ∧
    fsC10.globLogs dC10 = [] ∧
    MultiMCLauncher.clear_logs fsC10 ["mm"] "i" = (true, fsC10) := by
  have hres : MultiMCLauncher.get_instance_logs_directory fsC10 ["mm"] "i" =
      some dC10 := by decide
  have hglob : fsC10.globLogs dC10 = [] := by decide
  exact ⟨hres, hglob,
    ((clear_logs_empty_glob_true fsC10 ["mm"] "i" dC10).1 hres).1 hglob⟩

/-- Filesystem for the C7 counterexample: the `instance.cfg` contains the
line `InstanceType=OneSix`, a `[General]` header, and a later
`InstanceType=Forge` line. -/
def fsC7 : FS :=
  { dirs := [[], ["mm"], ["mm", "instances"], ["mm", "instances", "inst1"]],
    textFiles := [(["mm", "instances", "inst1", "instance.cfg"],
      "InstanceType=OneSix\n[General]\nInstanceType=Forge")],
    jsonFiles := [], mtimes := [], failUnlink := [], whichJava := none }

/-- Claim C7 counterexample: a directory whose `instance.cfg` contains
the line `InstanceType=OneSix` and a `[General]` header still yields a
record with version "Forge", because Python's dict assignment lets a
later `InstanceType=` line overwrite the earlier one — refuting the
claim as universally stated. -/
theorem multimc_cfg_last_wins_cex :
    "InstanceType=OneSix" ∈
      splitLines "InstanceType=OneSix\n[General]\nInstanceType=Forge"
    ∧ "[General]" ∈
      splitLines "InstanceType=OneSix\n[General]\nInstanceType=Forge"
    ∧ (MultiMCLauncher.get_instances fsC7 ["mm"]).map MmcInstance.version =
      ["Forge"] := by
  refine ⟨by decide, by decide, by decide⟩

/-- Claim C7 (amended): when every `InstanceType` assignment in the
`instance.cfg` assigns `OneSix` (in particular when `InstanceType=OneSix`
is the only such line), the produced record has version "OneSix"; and a
line starting (after stripping) with `[` never contributes to the parse,
wherever it occurs. -/
theorem multimc_cfg_parse_instancetype (fs : FS) (lp : FsPath) (nm : String)
    (content : String)
    (h1 : fs.pathExists (lp ++ ["instances"]) = true)
    (h2 : fs.isDir ((lp ++ ["instances"]) ++ [nm]) = true)
    (h3 : fs.pathExists (((lp ++ ["instances"]) ++ [nm]) ++
      ["instance.cfg"]) = true)
    (h4 : fs.readText (((lp ++ ["instances"]) ++ [nm]) ++
      ["instance.cfg"]) = some content)
    (h5 : "InstanceType=OneSix" ∈ splitLines content)
    (h6 : ∀ l ∈ splitLines content, assignsKey l "InstanceType" = true →
      assignedValue l = "OneSix") :
    (∃ rec ∈ MultiMCLauncher.get_instances fs lp,
      rec.name = nm ∧ rec.version = "OneSix")
    ∧ (∀ (pre : List String) (l : String) (post : List String),
        strStarts (pyStrip l) "[" = true →
        parseCfgLines (pre ++ l :: post) = parseCfgLines (pre ++ post)) := by
  constructor
  · have hnm : nm ∈ fs.childNames (lp ++ ["instances"]) :=
      mem_childNames_of_isDir fs (lp ++ ["instances"]) nm h2
    have hsome : (splitLines content).any
        (fun l => assignsKey l "InstanceType") = true :=
      List.any_eq_true.mpr ⟨"InstanceType=OneSix", h5, by decide⟩
    have hlk : (parseCfgLines (splitLines content)).lookup "InstanceType" =
        some "OneSix" :=
      lookup_parseCfgLines (splitLines content) "InstanceType" "OneSix"
        hsome h6
    refine ⟨{ name := nm, version := "OneSix",
              path := (lp ++ ["instances"]) ++ [nm], type := "instance",
              launcher := "multimc" }, ?_, rfl, rfl⟩
    unfold MultiMCLauncher.get_instances
    rw [if_pos h1]
    apply List.mem_filterMap.mpr
    refine ⟨nm, hnm, ?_⟩
    simp only [h2, if_true, h3, h4, hlk]
    rfl
  · intro pre l post h
    exact parseCfgLines_ignores_bracket pre l post h

/-- Filesystem for the C7 witness: a single `InstanceType=OneSix` line
plus a `[General]` header and an unrelated assignment. -/
def fsC7w : FS :=
  { dirs := [[], ["mm"], ["mm", "instances"], ["mm", "instances", "inst1"]],
    textFiles := [(["mm", "instances", "inst1", "instance.cfg"],
      "InstanceType=OneSix\n[General]\nName=Foo")],
    jsonFiles := [], mtimes := [], failUnlink := [], whichJava := none }

/-- Witness for C7 (amended) at a concrete MultiMC state. -/
theorem multimc_cfg_parse_instancetype_witness :
    fsC7w.pathExists (["mm"] ++ ["instances"]) = true ∧
    "InstanceType=OneSix" ∈
      splitLines "InstanceType=OneSix\n[General]\nName=Foo" ∧
    (∀ l ∈ splitLines "InstanceType=OneSix\n[General]\nName=Foo",
      assignsKey l "InstanceType" = true → assignedValue l = "OneSix") ∧
    (∃ rec ∈ MultiMCLauncher.get_instances fsC7w ["mm"],
      rec.name = "inst1" ∧ rec.version = "OneSix") := by
  refine ⟨by decide, by decide, by decide, ?_⟩
  exact (multimc_cfg_parse_instancetype fsC7w ["mm"] "inst1"
    "InstanceType=OneSix\n[General]\nName=Foo"
    (by decide) (by decide) (by decide) (by decide) (by decide)
    (by decide)).1

/-- Filesystem for the C4 counterexample: profile `p1` has
`lastVersionId = "1.20.1"` and no `gameDir`; both `mc/logs` and
`mc/versions/1.20.1/logs` exist on disk. -/
def fsC4 : FS :=
  { dirs := [[], ["mc"], ["mc", "logs"], ["mc", "versions"],
             ["mc", "versions", "1.20.1"],
             ["mc", "versions", "1.20.1", "logs"]],
    textFiles := [],
    jsonFiles := [(["mc", "launcher_profiles.json"],
      some (Json.obj [("profiles", Json.obj
        [("p1", Json.obj [("lastVersionId", Json.str "1.20.1")])])]))],
    mtimes := [], failUnlink := [], whichJava := none }

/-- Claim C4 counterexample: with `gameDir` absent the claim predicts the
logs directory `installPath/versions/1.20.1/logs` (which exists here),
but `get_instance_logs_directory` defaults `gameDir` to the install path
itself and returns `mc/logs`. -/
theorem vanilla_logs_dir_default_cex :
    VanillaLauncher.get_instance_logs_directory fsC4 ["mc"] "p1" =
      Except.ok (some ["mc", "logs"])
    ∧ fsC4.pathExists ["mc", "versions", "1.20.1", "logs"] = true
    ∧ (["mc", "logs"] : FsPath) ≠ ["mc", "versions", "1.20.1", "logs"] :=
  ⟨rfl, rfl, by decide⟩

/-- Claim C4 (amended): for a profile present as a non-empty object in
`launcher_profiles.json`, `get_instance_logs_directory` resolves
`gameDir/logs` where `gameDir` is the profile's `gameDir` entry when
present and defaults to the install path itself otherwise (not
`installPath/versions/<lastVersionId>`), returning the directory only
when it exists; and whenever the resolution yields a directory with at
least one `*.log` file, `get_logs` reads a `*.log` file of maximal
modification time in it. -/
theorem vanilla_logs_resolution_and_latest (fs : FS) (lp : FsPath)
    (nm : String) (kvs pkvs pentry : List (String × Json))
    (hex : fs.pathExists (lp ++ ["launcher_profiles.json"]) = true)
    (hread : fs.readJson (lp ++ ["launcher_profiles.json"]) =
      Except.ok (Json.obj kvs))
    (hprofiles : lookupLast kvs "profiles" = some (Json.obj pkvs))
    (hp : lookupLast pkvs nm = some (Json.obj pentry))
    (hne : pentry ≠ []) :
    (∀ s, lookupLast pentry "gameDir" = some (Json.str s) →
      VanillaLauncher.get_instance_logs_directory fs lp nm =
        Except.ok (if fs.pathExists (pathOfString s ++ ["logs"]) = true
          then some (pathOfString s ++ ["logs"]) else none))
    ∧ (lookupLast pentry "gameDir" = none →
      VanillaLauncher.get_instance_logs_directory fs lp nm =
        Except.ok (if fs.pathExists (lp ++ ["logs"]) = true
          then some (lp ++ ["logs"]) else none))
    ∧ (∀ d, VanillaLauncher.get_instance_logs_directory fs lp nm =
        Except.ok (some d) →
      fs.globLogs d ≠ [] →
      ∃ f, f ∈ fs.globLogs d ∧
        (∀ g ∈ fs.globLogs d, fs.mtime (d ++ [g]) ≤ fs.mtime (d ++ [f])) ∧
        VanillaLauncher.get_logs fs lp nm =
          Except.ok (some (readLogFile fs (d ++ [f])))) := by
  have htr : (Json.obj pentry).pyTruthy = true := by
    cases pentry with
    | nil => exact absurd rfl hne
    | cons a t => simp [Json.pyTruthy]
  refine ⟨?_, ?_, ?_⟩
  · intro s hgd
    unfold VanillaLauncher.get_instance_logs_directory
    rw [if_pos hex]
    simp only [hread, Json.pyDictGet, hprofiles, Option.getD_some,
      Bind.bind, Except.bind, Json.pyGetOpt, hp, htr, if_true, hgd, pure,
      Except.pure]
  · intro hgd
    unfold VanillaLauncher.get_instance_logs_directory
    rw [if_pos hex]
    simp only [hread, Json.pyDictGet, hprofiles, Option.getD_some,
      Bind.bind, Except.bind, Json.pyGetOpt, hp, htr, if_true, hgd, pure,
      Except.pure]
  · intro d hres hglob
    have hexd := vanilla_logs_dir_exists fs lp nm d hres
    cases hs : sortedByMtimeDesc fs d (fs.globLogs d) with
    | nil =>
      exfalso
      have hperm := List.perm_insertionSort
        (fun a b => fs.mtime (d ++ [b]) ≤ fs.mtime (d ++ [a]))
        (fs.globLogs d)
      unfold sortedByMtimeDesc at hs
      rw [hs] at hperm
      exact hglob hperm.symm.eq_nil
    | cons f rest =>
      obtain ⟨hf, hmax⟩ :=
        sortedByMtimeDesc_head_max fs d (fs.globLogs d) f rest hs
      refine ⟨f, hf, hmax, ?_⟩
      unfold VanillaLauncher.get_logs
      simp only [hres, Bind.bind, Except.bind, hexd, if_true, hs, pure,
        Except.pure]

/-- Witness for C4 (amended): `gameDir` absent, the resolution defaults
to the install path. -/
theorem vanilla_logs_resolution_and_latest_witness :
    fsC4.pathExists (["mc"] ++ ["launcher_profiles.json"]) = true ∧
    lookupLast [("lastVersionId", Json.str "1.20.1")] "gameDir" = none ∧
    VanillaLauncher.get_instance_logs_directory fsC4 ["mc"] "p1" =
      Except.ok (if fsC4.pathExists (["mc"] ++ ["logs"]) = true
        then some (["mc"] ++ ["logs"]) else none) := by
  refine ⟨by decide, rfl, ?_⟩
  exact (vanilla_logs_resolution_and_latest fsC4 ["mc"] "p1"
    [("profiles", Json.obj
      [("p1", Json.obj [("lastVersionId", Json.str "1.20.1")])])]
    [("p1", Json.obj [("lastVersionId", Json.str "1.20.1")])]
    [("lastVersionId", Json.str "1.20.1")]
    (by decide) rfl rfl rfl (List.cons_ne_nil _ _)).2.1 rfl

/-- CurseForge state whose manifest carries `minecraft.version`. -/
def fsC8good : FS :=
  { dirs := [[], ["cf"], ["cf", "Instances"], ["cf", "Instances", "pack"]],
    textFiles := [],
    jsonFiles := [(["cf", "Instances", "pack", "manifest.json"],
      some (Json.obj
        [("minecraft", Json.obj [("version", Json.str "1.20.1")])]))],
    mtimes := [], failUnlink := [], whichJava := none }

/-- CurseForge state with no manifest file at all. -/
def fsC8missing : FS :=
  { dirs := [[], ["cf"], ["cf", "Instances"], ["cf", "Instances", "pack"]],
    textFiles := [], jsonFiles := [], mtimes := [], failUnlink := [],
    whichJava := none }

/-- CurseForge state whose manifest parses but holds a non-object value
under `"minecraft"`, so the path `minecraft.version` is absent. -/
def fsC8bad : FS :=
  { dirs := [[], ["cf"], ["cf", "Instances"], ["cf", "Instances", "pack"]],
    textFiles := [],
    jsonFiles := [(["cf", "Instances", "pack", "manifest.json"],
      some (Json.obj [("minecraft", Json.num 5)]))],
    mtimes := [], failUnlink := [], whichJava := none }

/-- Claim C8: `get_instances` yields version "1.20.1" when the manifest
has `minecraft.version`, and "Unknown" when the manifest is absent; but
on the failing input `manifest.json = {"minecraft": 5}` — a manifest that
merely lacks the `minecraft.version` key — the chained
`manifest.get("minecraft", {}).get("version", "Unknown")` raises an
uncaught `AttributeError` instead of degrading to "Unknown", aborting the
whole listing (code bug relative to the documented error-handling
policy). -/
theorem curseforge_version_eval :
    CurseForgeLauncher.get_instances fsC8good ["cf"] =
      Except.ok [{ name := "pack", path := ["cf", "Instances", "pack"],
                   type := "modpack", launcher := "curseforge",
                   version := Json.str "1.20.1" }]
    ∧ CurseForgeLauncher.get_instances fsC8missing ["cf"] =
      Except.ok [{ name := "pack", path := ["cf", "Instances", "pack"],
                   type := "modpack", launcher := "curseforge",
                   version := Json.str "Unknown" }]
    ∧ CurseForgeLauncher.get_instances fsC8bad ["cf"] = Except.error () :=
  ⟨rfl, rfl, rfl⟩
